import Mathlib

/-!
Verification of the Conversational Knowledge Bot (bot.py, langchain_bot.py).

The Python sources are shallowly embedded below: strings are Lean `String`s
(manipulated through their underlying character lists), the Wikipedia library
is an abstract `Provider` whose calls may fail with a `PyExn`, and every
`try`/`except` of the source becomes an explicit `match` on the call result.
Each embedded function also returns the list of provider calls it performed,
so that "no provider call is made" is a provable statement.
-/

namespace KB

/-! ### Python string primitives -/

/-- Python whitespace characters recognised by `str.strip` / `str.split`. -/
def pyIsSpace (c : Char) : Bool :=
  c = ' ' || c = '\t' || c = '\n' || c = '\r' || c = '\x0b' || c = '\x0c'

/-- ASCII lower-casing of one character, as `str.lower` acts on the
ASCII inputs appearing in this code base. -/
def asciiLower (c : Char) : Char :=
  match c with
  | 'A' => 'a' | 'B' => 'b' | 'C' => 'c' | 'D' => 'd' | 'E' => 'e' | 'F' => 'f'
  | 'G' => 'g' | 'H' => 'h' | 'I' => 'i' | 'J' => 'j' | 'K' => 'k' | 'L' => 'l'
  | 'M' => 'm' | 'N' => 'n' | 'O' => 'o' | 'P' => 'p' | 'Q' => 'q' | 'R' => 'r'
  | 'S' => 's' | 'T' => 't' | 'U' => 'u' | 'V' => 'v' | 'W' => 'w' | 'X' => 'x'
  | 'Y' => 'y' | 'Z' => 'z'
  | c => c

/-- `str.lower` on a character list. -/
def pyLower (l : List Char) : List Char := l.map asciiLower

/-- Is `n` a leading segment of `l`?  (Python `str.startswith`.) -/
def isPre : List Char → List Char → Bool
  | [], _ => true
  | _ :: _, [] => false
  | a :: n, b :: l => a = b && isPre n l

/-- Is `n` a contiguous segment of `l`?  (Python `in` on strings.) -/
def isSub : List Char → List Char → Bool
  | n, [] => n.isEmpty
  | n, l@(_ :: t) => isPre n l || isSub n t

/-- Drop leading Python whitespace. -/
def stripLead (l : List Char) : List Char := l.dropWhile pyIsSpace

/-- Drop trailing Python whitespace. -/
def stripEnd (l : List Char) : List Char := (l.reverse.dropWhile pyIsSpace).reverse

/-- Python `str.strip()`. -/
def pyStrip (l : List Char) : List Char := stripEnd (stripLead l)

theorem dwLen {α : Type} (p : α → Bool) (l : List α) :
    (l.dropWhile p).length ≤ l.length :=
  (List.dropWhile_sublist p).length_le

/-- Scanner for `str.split()`: `cur` is the reversed word being read. -/
def swGo (cur : List Char) : List Char → List (List Char)
  | [] => if cur.isEmpty then [] else [cur.reverse]
  | c :: l =>
    if pyIsSpace c then
      if cur.isEmpty then swGo [] l else cur.reverse :: swGo [] l
    else swGo (c :: cur) l

/-- Python `str.split()` — split on whitespace runs, discarding empties. -/
def splitWs (l : List Char) : List (List Char) := swGo [] l

/-- Join character-list words with single spaces (`' '.join`). -/
def joinSp (ws : List (List Char)) : List Char := List.intercalate [' '] ws

/-- Python `str.replace(pat, rep)`: replace all non-overlapping occurrences,
left to right.  (All patterns used in the sources are non-empty.) -/
def raGo (pat rep : List Char) : Nat → List Char → List Char
  | _, [] => []
  | n + 1, _ :: l => raGo pat rep n l
  | 0, c :: l =>
    if pat ≠ [] ∧ isPre pat (c :: l) then
      rep ++ raGo pat rep (pat.length - 1) l
    else c :: raGo pat rep 0 l

def replaceAll (pat rep : List Char) (l : List Char) : List Char :=
  raGo pat rep 0 l

/-- Python `str.rstrip('?')`. -/
def rstripQ (l : List Char) : List Char := (l.reverse.dropWhile (· = '?')).reverse

/-- A sentence-terminating punctuation character, the class `[.!?]`. -/
def isPunct (c : Char) : Bool := c = '.' || c = '!' || c = '?'

/-- Scanner for `re.split(r'[.!?]+', text)`: `cur` is `some` of the
reversed current piece, or `none` while inside a punctuation run. -/
def spGo : Option (List Char) → List Char → List (List Char)
  | some p, [] => [p.reverse]
  | none, [] => [[]]
  | some p, c :: l => if isPunct c then p.reverse :: spGo none l else spGo (some (c :: p)) l
  | none, c :: l => if isPunct c then spGo none l else spGo (some [c]) l

/-- `re.split(r'[.!?]+', text)` — split on maximal runs of sentence
punctuation, keeping empty pieces at the boundaries (as `re.split` does). -/
def splitPunct (l : List Char) : List (List Char) := spGo (some []) l

/-! ### Small regular-expression fragments

The sources use only a handful of fixed regex shapes; each is embedded as a
purpose-built matcher with Python `re` semantics (leftmost match, greedy
`\s+` with backtracking, lazy `(.+?)`, `.` not matching a newline). -/

/-- The lazy tail of a pattern `(.+?)(?:\?|$)`: from the given text, the
shortest non-empty newline-free capture that is followed by `?` or by the
end of the text. -/
def capFrom : List Char → Option (List Char)
  | [] => none
  | c :: r =>
    if c = '\n' then none
    else
      match r with
      | [] => some [c]
      | d :: _ => if d = '?' then some [c] else (capFrom r).map (c :: ·)

/-- Backtracking over the greedy `\s+`: try consuming `w` whitespace
characters first, then fewer, down to one. -/
def tryWs (after : List Char) : Nat → Option (List Char)
  | 0 => none
  | w + 1 =>
    match capFrom (after.drop (w + 1)) with
    | some cap => some cap
    | none => tryWs after w

/-- Attempt the pattern `lit\s+(.+?)(?:\?|$)` at the current position. -/
def matchRoleAt (lit : List Char) (s : List Char) : Option (List Char) :=
  if isPre lit s then
    let after := s.drop lit.length
    tryWs after (after.takeWhile pyIsSpace).length
  else none

/-- `re.search` for the pattern `lit\s+(.+?)(?:\?|$)`: scan start positions
left to right and return the first capture. -/
def searchRole (lit : List Char) : List Char → Option (List Char)
  | [] => none
  | s@(_ :: rest) =>
    match matchRoleAt lit s with
    | some cap => some cap
    | none => searchRole lit rest

/-- A Python word character, the class `\w` used by `\b` boundaries. -/
def isWordChar (c : Char) : Bool := c.isAlphanum || c = '_'

/-- One article pattern step for `re.sub(r'\b(the|a|an)\b', '', s)`:
does `pat` match here with a word boundary after it? -/
def articleAt (pat : List Char) (l : List Char) : Bool :=
  isPre pat l &&
    (match l.drop pat.length with
     | [] => true
     | d :: _ => !isWordChar d)

/-- Scanner for `re.sub(r'\b(the|a|an)\b', '', s)`: scan left to right; at
each word boundary try `the`, `a`, `an` in that order and delete the first
that matches with a closing boundary.  `prevWord` records whether the
previous character was a word character (no boundary before a word
character); `skip` consumes the tail of a deleted article. -/
def saGo : Bool → Nat → List Char → List Char
  | _, _, [] => []
  | pw, n + 1, _ :: l => saGo pw n l
  | pw, 0, c :: l =>
    if !pw && articleAt ['t', 'h', 'e'] (c :: l) then saGo true 2 l
    else if !pw && articleAt ['a'] (c :: l) then saGo true 0 l
    else if !pw && articleAt ['a', 'n'] (c :: l) then saGo true 1 l
    else c :: saGo (isWordChar c) 0 l

/-- `re.sub(r'\b(the|a|an)\b', '', s)`. -/
def subArticles (prevWord : Bool) (l : List Char) : List Char :=
  saGo prevWord 0 l

/-- The lazy capture of `\*\*(.+?)\*\*`: shortest non-empty newline-free
capture followed by `**`. -/
def capBold : List Char → Option (List Char)
  | [] => none
  | c :: r =>
    if c = '\n' then none
    else if isPre ['*', '*'] r then some [c]
    else (capBold r).map (c :: ·)

/-- `re.search(r'\*\*(.+?)\*\*', s)`: first bold span's contents. -/
def searchBold : List Char → Option (List Char)
  | [] => none
  | s@(_ :: rest) =>
    if isPre ['*', '*'] s then
      match capBold (s.drop 2) with
      | some cap => some cap
      | none => searchBold rest
    else searchBold rest

/-! ### Query normalizer (`_clean_query` in both bots) -/

/-- The ordered prefix table of `KnowledgeBot._clean_query` (bot.py). -/
def prefixesB : List (List Char) :=
  ["who is".data, "who was".data, "who are".data, "who does".data,
   "what is".data, "what was".data, "what are".data, "what does".data,
   "where is".data, "where was".data, "where are".data, "where does".data,
   "when is".data, "when was".data, "when are".data, "when does".data,
   "why is".data, "why was".data, "why are".data, "why does".data,
   "how is".data, "how was".data, "how are".data, "how does".data,
   "tell me about".data, "tell me more about".data, "describe".data,
   "explain".data, "information about".data, "details about".data,
   "give me information about".data, "i want to know about".data]

/-- The ordered prefix table of `LangChainKnowledgeBot._clean_query`. -/
def prefixesLC : List (List Char) :=
  ["who is".data, "who was".data, "what is".data, "what was".data,
   "where is".data, "where was".data, "when is".data, "when was".data,
   "tell me about".data, "explain".data, "describe".data,
   "more about".data, "tell more about".data]

/-- Shared shape of `_clean_query`: strip, find the first prefix that the
lower-cased text starts with, cut it from the original-cased text and strip
again; with no match return the stripped original. -/
def cleanQueryCore (prefs : List (List Char)) (q : List Char) : List Char :=
  let t := pyStrip q
  match prefs.find? (fun p => isPre p (pyLower t)) with
  | some p => pyStrip (t.drop p.length)
  | none => t

/-- `KnowledgeBot._clean_query`. -/
def cleanQueryB (q : String) : String := ⟨cleanQueryCore prefixesB q.data⟩

/-- `LangChainKnowledgeBot._clean_query`. -/
def cleanQueryLC (q : String) : String := ⟨cleanQueryCore prefixesLC q.data⟩

/-! ### Conversation memory (bot.py `ConversationMemory`) -/

/-- One stored exchange, the dict appended by `save_context`. -/
structure TurnB where
  user : String
  bot : String
  timestamp : String
deriving DecidableEq, Repr

/-- `ConversationMemory`: a `deque(maxlen=maxHistory)` of turns plus the
last user query. -/
structure ConvMemory where
  maxHistory : Nat
  history : List TurnB
  lastUserQuery : Option String
deriving DecidableEq, Repr

/-- `ConversationMemory(max_history)` freshly constructed. -/
def initMemory (k : Nat) : ConvMemory := ⟨k, [], none⟩

/-- `save_context`: append the turn; the deque evicts from the front once
its `maxlen` is exceeded. -/
def saveContext (m : ConvMemory) (u b ts : String) : ConvMemory :=
  let h := m.history ++ [⟨u, b, ts⟩]
  ⟨m.maxHistory,
   if h.length > m.maxHistory then h.drop (h.length - m.maxHistory) else h,
   some u⟩

/-- `load_memory`: render the history as `User:`/`Bot:` lines. -/
def loadMemory (m : ConvMemory) : String :=
  String.intercalate "\n"
    (m.history.map fun e => "User: " ++ e.user ++ "\nBot: " ++ e.bot)

/-- `clear`: empty the deque and reset the last query. -/
def clearMemory (m : ConvMemory) : ConvMemory := ⟨m.maxHistory, [], none⟩

/-! ### The Wikipedia provider boundary -/

/-- A Python exception as the bots distinguish them: the `wikipedia`
disambiguation and page-not-found errors, and anything else. -/
inductive PyExn where
  | disambig (options : List String)
  | pageError
  | other (msg : String)
deriving DecidableEq, Repr

/-- `str(e)` as used in the error-message templates. -/
def pyStr : PyExn → String
  | .disambig _ => "DisambiguationError"
  | .pageError => "PageError"
  | .other m => m

/-- The result of a successful `wikipedia.page` call. -/
structure PageData where
  title : String
  url : String
  content : String
deriving DecidableEq, Repr

/-- The abstract provider: `wikipedia.search`, `wikipedia.page` (with its
`auto_suggest` flag) and `wikipedia.summary` (sentence count and
`auto_suggest`), each able to raise. -/
structure Provider where
  search : String → Nat → Except PyExn (List String)
  page : String → Bool → Except PyExn PageData
  summary : String → Nat → Bool → Except PyExn String

/-- One provider call, recorded in traces. -/
inductive Call where
  | searchC (q : String) (n : Nat)
  | pageC (t : String) (autoSuggest : Bool)
  | summaryC (t : String) (n : Nat) (autoSuggest : Bool)
deriving DecidableEq, Repr

/-- The provider all of whose calls raise a generic exception `e`. -/
def failProv (e : String) : Provider :=
  ⟨fun _ _ => .error (.other e), fun _ _ => .error (.other e),
   fun _ _ _ => .error (.other e)⟩

/-! ### bot.py `KnowledgeBot` -/

/-- The response template of `_search_wikipedia`'s success path. -/
def fmtBot (title summary url : String) : String :=
  "**" ++ title ++ "**\n\n" ++ summary ++ "\n\n [Read more](" ++ url ++ ")"

/-- The response template of the disambiguation branch. -/
def fmtBotMulti (title summary url : String) : String :=
  "**" ++ title ++ "**\n\n" ++ summary ++ "\n\n [Read more](" ++ url ++
    ")\n\n Multiple matches found. Showing the most relevant result."

/-- The empty-topic message of `_search_wikipedia`. -/
def promptB : String := "Please provide a specific topic to search for."

/-- The message when no search strategy yields results. -/
def cnfB1 (q : String) : String :=
  "Could not find information about \u0027" ++ q ++
    "\u0027.\n\n Try rephrasing your question or checking the spelling."

/-- The message when no candidate page could be fetched. -/
def cnfB2 (q : String) : String :=
  " Could not find information about \u0027" ++ q ++
    "\u0027.\n\n Try being more specific in your question."

/-- The inner loop over `e.options[:5]` of the disambiguation handler:
`wikipedia.page(option)` then `wikipedia.summary(option, sentences=5)`
(fuzzy defaults), returning on the first pair of successes; every
exception is swallowed by the bare `except`. -/
def botDisLoop (prov : Provider) : List String → Option String × List Call
  | [] => (none, [])
  | o :: rest =>
    match prov.page o true with
    | .ok pg =>
      match prov.summary o 5 true with
      | .ok sm =>
        (some (fmtBotMulti pg.title sm pg.url), [.pageC o true, .summaryC o 5 true])
      | .error _ =>
        let (r, tr) := botDisLoop prov rest
        (r, .pageC o true :: .summaryC o 5 true :: tr)
    | .error _ =>
      let (r, tr) := botDisLoop prov rest
      (r, .pageC o true :: tr)

/-- The loop over `search_results[:5]`: fetch page and summary; a
`DisambiguationError` from either call is probed via `botDisLoop`; any
other exception moves to the next result. -/
def botMainLoop (prov : Provider) : List String → Option String × List Call
  | [] => (none, [])
  | r :: rest =>
    match prov.page r true with
    | .ok pg =>
      match prov.summary r 5 true with
      | .ok sm =>
        (some (fmtBot pg.title sm pg.url), [.pageC r true, .summaryC r 5 true])
      | .error (.disambig opts) =>
        let (d, trD) := botDisLoop prov (opts.take 5)
        (match d with
         | some s => (some s, .pageC r true :: .summaryC r 5 true :: trD)
         | none =>
           let (m, trM) := botMainLoop prov rest
           (m, .pageC r true :: .summaryC r 5 true :: (trD ++ trM)))
      | .error _ =>
        let (m, trM) := botMainLoop prov rest
        (m, .pageC r true :: .summaryC r 5 true :: trM)
    | .error (.disambig opts) =>
      let (d, trD) := botDisLoop prov (opts.take 5)
      (match d with
       | some s => (some s, .pageC r true :: trD)
       | none =>
         let (m, trM) := botMainLoop prov rest
         (m, .pageC r true :: (trD ++ trM)))
    | .error _ =>
      let (m, trM) := botMainLoop prov rest
      (m, .pageC r true :: trM)

/-- Strategy 3 of `_search_wikipedia`: for `i in range(min(3, len(words)))`
search for `' '.join(words[i:i+3])`, stopping at the first non-empty
result list; search errors continue the loop. -/
def botS3 (prov : Provider) (words : List (List Char)) :
    List Nat → List String × List Call
  | [] => ([], [])
  | i :: is =>
    let key : String := ⟨joinSp ((words.drop i).take 3)⟩
    match prov.search key 10 with
    | .ok (x :: xs) => (x :: xs, [.searchC key 10])
    | .ok [] =>
      let (r, tr) := botS3 prov words is
      (r, .searchC key 10 :: tr)
    | .error _ =>
      let (r, tr) := botS3 prov words is
      (r, .searchC key 10 :: tr)

/-- The tail of `_search_wikipedia`: candidate probing over the collected
search results (empty results short-circuit to the first not-found
message). -/
def searchFinish (prov : Provider) (query : String) (rt : List String × List Call) :
    String × List Call :=
  if rt.1 = [] then (cnfB1 query, rt.2)
  else
    let mt := botMainLoop prov (rt.1.take 5)
    match mt.1 with
    | some s => (s, rt.2 ++ mt.2)
    | none => (cnfB2 query, rt.2 ++ mt.2)

/-- `KnowledgeBot._search_wikipedia`, with its three search strategies and
candidate-probing loop.  Every `try`/`except` of the source is an explicit
match; the second component is the trace of provider calls. -/
def searchWikipedia (prov : Provider) (query : String) : String × List Call :=
  let clean := cleanQueryB query
  if clean = "" then (promptB, [])
  else
    let s1 : List String := match prov.search clean 10 with | .ok l => l | .error _ => []
    let t1 : List Call := [.searchC clean 10]
    let rt : List String × List Call :=
      if s1 ≠ [] then (s1, t1)
      else
        let s2 : List String :=
          match prov.search query 10 with | .ok l => l | .error _ => []
        let t2 := t1 ++ [Call.searchC query 10]
        if s2 ≠ [] then (s2, t2)
        else
          let words := splitWs query.data
          if words.length ≥ 2 then
            let s3 := botS3 prov words (List.range (min 3 words.length))
            (s3.1, t2 ++ s3.2)
          else ([], t2)
    searchFinish prov query rt

/-- The fixed greeting of `KnowledgeBot._handle_greeting`. -/
def greetB : String :=
  " Hello! I\u0027m your Conversational Knowledge Bot.\n\nI can:\n- Answer any factual question using Wikipedia\n- Search for information about people, places, concepts, history, science, and more\n- Remember our conversation for context\n\nTry asking:\n- \"Who is the CEO of Google?\"\n- \"What is quantum computing?\"\n- \"Where is the Taj Mahal?\"\n- \"When was World War II?\"\n- \"Who painted the Mona Lisa?\"\n- \"What is the capital of Australia?\"\n\nWhat would you like to know?"

/-- The fixed thanks reply of `KnowledgeBot._handle_thanks`. -/
def thanksB : String :=
  " You\u0027re welcome! Feel free to ask more questions anytime."

/-- The fixed help text of `KnowledgeBot._get_help`. -/
def helpB : String :=
  " **HELP - Conversational Knowledge Bot**\n\n**What I can do:**\n• Answer ANY factual question using Wikipedia\n• Search for information about people, places, events, concepts\n• Explain topics and provide detailed information\n• Provide source links for verification\n\n**Example Questions:**\n• Who is the CEO of OpenAI?\n• What is artificial intelligence?\n• Where is the Amazon River located?\n• When did World War II end?\n• Who discovered penicillin?\n• What is the population of Tokyo?\n• Who wrote Romeo and Juliet?\n• What is photosynthesis?\n• Where is the Great Barrier Reef?\n• Who is the President of France?\n\n**Tips:**\n• Be specific with names and topics\n• Use full names for people\n• Check spelling of proper nouns\n\nType \u0027quit\u0027 to exit anytime!"

/-- The empty-input reply of `process_query` in both bots. -/
def askMsg : String := "Please ask a question."

/-- `KnowledgeBot.process_query`: strip, dispatch the special commands,
otherwise search Wikipedia and record the exchange (with timestamp `ts`)
in memory.  Returns the response, the updated memory and the provider
call trace. -/
def processQueryB (prov : Provider) (mem : ConvMemory) (query : String)
    (ts : String) : (String × ConvMemory) × List Call :=
  let q : List Char := pyStrip query.data
  if q = [] then ((askMsg, mem), [])
  else
    let ql := pyLower q
    if ql = "hi".data ∨ ql = "hello".data ∨ ql = "hey".data then
      ((greetB, mem), [])
    else if ql = "help".data ∨ ql = "?".data then
      ((helpB, mem), [])
    else if isSub "thank".data ql then
      ((thanksB, mem), [])
    else
      let rt := searchWikipedia prov ⟨q⟩
      ((rt.1, saveContext mem ⟨q⟩ rt.1 ts), rt.2)

/-! ### langchain_bot.py `LangChainKnowledgeBot`

The LangChain `ConversationBufferMemory` (external library, like the
Wikipedia provider) is modelled at its interface: `save_context` appends
one exchange, `load_memory_variables` renders the buffer as
`Human:`/`AI:` lines joined by newlines. -/

/-- The bot's mutable state: the buffer memory and `self.last_entity`. -/
structure LCState where
  memory : List (String × String)
  lastEntity : Option String
deriving DecidableEq, Repr

/-- A fresh `LangChainKnowledgeBot`. -/
def initLC : LCState := ⟨[], none⟩

/-- `memory.save_context({"input": u}, {"response": r})`. -/
def saveLC (st : LCState) (u r : String) : LCState :=
  ⟨st.memory ++ [(u, r)], st.lastEntity⟩

/-- `memory.load_memory_variables({})["history"]`: the buffer string. -/
def renderHistory (mem : List (String × String)) : String :=
  String.intercalate "\n"
    (mem.foldr (fun p acc => ("Human: " ++ p.1) :: ("AI: " ++ p.2) :: acc) [])

/-- Python truthiness of an optional string (`None` and `""` are falsy). -/
def optTruthy : Option String → Bool
  | none => false
  | some s => s ≠ ""

/-- The ordered role-pattern table of `_extract_entity`. -/
def rolePats : List (List Char) :=
  ["ceo of".data, "president of".data, "prime minister of".data,
   "capital of".data, "who is".data, "what is".data,
   "tell me about".data, "founder of".data]

/-- First pattern of the table that matches, dict order. -/
def firstRole : List (List Char) → List Char → Option (List Char)
  | [], _ => none
  | p :: ps, s =>
    match searchRole p s with
    | some c => some c
    | none => firstRole ps s

/-- `LangChainKnowledgeBot._extract_entity`: match the role patterns
against the lower-cased stripped query; clean the capture by stripping,
deleting articles and trailing question marks. -/
def extractEntity (query : String) : Option String :=
  let ql := pyLower (pyStrip query.data)
  match firstRole rolePats ql with
  | some cap => some ⟨pyStrip (rstripQ (pyStrip (subArticles false (pyStrip cap))))⟩
  | none => none

/-- The core of the pattern `what('s| is| was)? (his|her|their|its) `
attempted at one position. -/
def whatPossAt (s : List Char) : Bool :=
  isPre "what".data s &&
    ([['\x27', 's'], " is".data, " was".data, ([] : List Char)].any fun opt =>
      isPre opt (s.drop 4) &&
        (let t := s.drop (4 + opt.length)
         isPre [' '] t &&
           (["his".data, "her".data, "their".data, "its".data].any fun p =>
             isPre p (t.drop 1) && isPre [' '] (t.drop (1 + p.length)))))

/-- `re.search` of a boolean position test: does it hold anywhere? -/
def anyTail (f : List Char → Bool) : List Char → Bool
  | [] => f []
  | l@(_ :: t) => f l || anyTail f t

/-- `LangChainKnowledgeBot._is_follow_up`: any of the fixed surface
patterns matches the lower-cased stripped utterance. -/
def isFollowUp (query : String) : Bool :=
  let ql := pyLower (pyStrip query.data)
  isPre "he ".data ql || isPre "she ".data ql || isPre "they ".data ql ||
  isPre "it ".data ql ||
  isPre "where ".data ql || isPre "when ".data ql || isPre "how ".data ql ||
  isPre "why ".data ql || isPre "which ".data ql ||
  anyTail whatPossAt ql ||
  isPre "tell me more".data ql || isPre "more about".data ql ||
  isPre "what about".data ql ||
  isSub "background".data ql || isSub "history".data ql ||
  isSub "biography".data ql || isSub "longest".data ql ||
  isSub "shortest".data ql || isSub "biggest".data ql ||
  isSub "smallest".data ql || isSub "highest".data ql ||
  isSub "lowest".data ql || isSub "tallest".data ql ||
  isSub "among them".data ql || isSub "of them".data ql

/-- Noise words rejected in a bold title (`_extract_entity_from_response`). -/
def noiseWords4 : List (List Char) :=
  ["page".data, "summary".data, "wikipedia".data, "list of".data]

/-- Noise words rejected in the capitalized-bigram fallback and in
`_extract_last_topic_from_history`. -/
def noiseWords3 : List (List Char) :=
  ["page".data, "summary".data, "wikipedia".data]

/-- Does any of the given segments occur in `s`? -/
def anySubIn (pats : List (List Char)) (s : List Char) : Bool :=
  pats.any (fun p => isSub p s)

/-- `word[0].isupper()` on the ASCII inputs of this code base. -/
def headUpper : List Char → Bool
  | [] => false
  | c :: _ => 'A' ≤ c && c ≤ 'Z'

/-- The capitalized-bigram fallback scan of `_extract_entity_from_response`. -/
def bigramScan : List (List Char) → Option (List Char)
  | [] => none
  | [_] => none
  | w :: w2 :: rest =>
    if headUpper w && decide (w.length > 2) && headUpper w2 then
      let pot := w ++ [' '] ++ w2
      if decide (pot.length > 5) && !anySubIn noiseWords3 (pyLower pot) then
        some pot
      else bigramScan (w2 :: rest)
    else bigramScan (w2 :: rest)

/-- `LangChainKnowledgeBot._extract_entity_from_response`: prefer the first
bold span (noise-filtered), else scan for an adjacent capitalized pair. -/
def extractEntityFromResponse (response : String) : Option String :=
  match searchBold response.data with
  | some cap =>
    let title := pyStrip cap
    if !anySubIn noiseWords4 (pyLower title) then some ⟨title⟩
    else (bigramScan (splitWs response.data)).map (⟨·⟩)
  | none => (bigramScan (splitWs response.data)).map (⟨·⟩)

/-- The backwards scan over `Human:` lines of
`_extract_last_topic_from_history`'s fallback. -/
def humanScan : List String → String
  | [] => ""
  | ln :: rest =>
    if isPre "Human:".data ln.data then
      let hq := pyStrip (replaceAll "Human:".data [] ln.data)
      match extractEntity ⟨hq⟩ with
      | some e =>
        if e ≠ "" then e
        else if hq.length > 3 then (⟨hq⟩ : String) else humanScan rest
      | none => if hq.length > 3 then (⟨hq⟩ : String) else humanScan rest
    else humanScan rest

/-- `LangChainKnowledgeBot._extract_last_topic_from_history`. -/
def extractLastTopic (history : String) : String :=
  if history = "" then ""
  else
    let lines := history.splitOn "\n"
    let fromAi : Option String :=
      match (lines.reverse).find? (fun ln => isPre "AI:".data ln.data) with
      | some ai =>
        match searchBold ai.data with
        | some cap =>
          let topic := pyStrip cap
          if !anySubIn noiseWords3 (pyLower topic) then some ⟨topic⟩ else none
        | none => none
      | none => none
    match fromAi with
    | some t => t
    | none => humanScan lines.reverse

/-! ### `_search_wikipedia_direct` and its CEO strategy ladder -/

/-- Response template with a space before the link. -/
def fmtSp (title summary url : String) : String :=
  "**" ++ title ++ "**\n\n" ++ summary ++ "\n\n [Read more](" ++ url ++ ")"

/-- Response template with no space before the link. -/
def fmtNoSp (title summary url : String) : String :=
  "**" ++ title ++ "**\n\n" ++ summary ++ "\n\n[Read more](" ++ url ++ ")"

/-- Disambiguation-branch template of `_search_wikipedia_direct`. -/
def fmtMultiLC (title summary url : String) : String :=
  "**" ++ title ++ "**\n\n" ++ summary ++ "\n\n [Read more](" ++ url ++
    ")\n\n Multiple matches found."

/-- Company-page fallback template of the CEO ladder. -/
def fmtCompany (title summary url : String) : String :=
  "**" ++ title ++ "**\n\n" ++ summary ++ "\n\n [Read more](" ++ url ++
    ")\n\n CEO information may be available in a separate Wikipedia page. Try searching for the CEO\u0027s name directly."

/-- The empty-topic message of `_search_wikipedia_direct`. -/
def promptLC : String := "Please provide a specific topic."

/-- The not-found message of `_search_wikipedia_direct`. -/
def cnfLC (clean : String) : String :=
  " Could not find information about \u0027" ++ clean ++
    "\u0027.\n\n Try rephrasing your question."

/-- The boundary error message of `_search_wikipedia_direct`. -/
def errLC (e : String) : String := " Error searching Wikipedia: " ++ e

/-- CEO indicators of the first (direct page lookup) pass. -/
def ceoInd1 : List (List Char) :=
  ["chief executive officer".data, "ceo".data, "executive".data, "born".data,
   "appointed".data, "sundar pichai".data, "tim cook".data,
   "satya nadella".data, "mark zuckerberg".data]

/-- CEO indicators of the second (search results) pass. -/
def ceoInd2 : List (List Char) :=
  ["chief executive officer".data, "ceo".data, "executive".data, "born".data,
   "appointed".data, "sundar pichai".data, "tim cook".data,
   "satya nadella".data, "mark zuckerberg".data, "business executive".data,
   "american business".data, "indian business".data]

/-- CEO indicators of the third (general searches) pass. -/
def ceoInd3 : List (List Char) :=
  ["chief executive officer".data, "ceo".data, "executive".data, "born".data,
   "appointed".data, "business executive".data, "american business".data,
   "indian business".data]

/-- Person indicators checked against the page title. -/
def personInd : List (List Char) :=
  ["born".data, "businessman".data, "executive".data, "ceo".data]

/-- The acceptance filter shared by the CEO search passes: role indicator
in the summary or person indicator in the title, and the title is not
simply the company page. -/
def ceoAccept (inds : List (List Char)) (company title summary : String) : Bool :=
  let sl := pyLower summary.data
  let tl := pyLower title.data
  (anySubIn inds sl || anySubIn personInd tl) &&
    (!isSub (pyLower company.data) tl || isSub "ceo".data (pyLower tl))

/-- The `search_attempts` list of the CEO ladder. -/
def searchAttemptsFor (company : String) : List String :=
  [company ++ " CEO", "CEO of " ++ company,
   company ++ " chief executive officer",
   "List of " ++ company ++ " executives",
   "Current " ++ company ++ " CEO", company ++ " leadership"]

/-- The `general_searches` list of the CEO ladder's third pass. -/
def generalSearchesFor (company : String) : List String :=
  [company ++ " chief executive officer", company ++ " CEO biography",
   company ++ " leadership team", "List of " ++ company ++ " executives"]

/-- CEO pass 1: direct page lookups over `search_attempts`, accepting a
summary containing a role indicator; every exception is swallowed. -/
def lcPass1 (prov : Provider) : List String → Option String × List Call
  | [] => (none, [])
  | st :: rest =>
    match prov.page st false with
    | .ok pg =>
      match prov.summary st 8 false with
      | .ok sm =>
        if anySubIn ceoInd1 (pyLower sm.data) then
          (some (fmtSp pg.title sm pg.url), [.pageC st false, .summaryC st 8 false])
        else
          let (r, tr) := lcPass1 prov rest
          (r, .pageC st false :: .summaryC st 8 false :: tr)
      | .error _ =>
        let (r, tr) := lcPass1 prov rest
        (r, .pageC st false :: .summaryC st 8 false :: tr)
    | .error _ =>
      let (r, tr) := lcPass1 prov rest
      (r, .pageC st false :: tr)

/-- CEO pass 2, inner loop over one search's results. -/
def lcPass2Inner (prov : Provider) (company : String) :
    List String → Option String × List Call
  | [] => (none, [])
  | r :: rest =>
    match prov.page r false with
    | .ok pg =>
      match prov.summary r 6 false with
      | .ok sm =>
        if ceoAccept ceoInd2 company pg.title sm then
          (some (fmtSp pg.title sm pg.url), [.pageC r false, .summaryC r 6 false])
        else
          let (o, tr) := lcPass2Inner prov company rest
          (o, .pageC r false :: .summaryC r 6 false :: tr)
      | .error _ =>
        let (o, tr) := lcPass2Inner prov company rest
        (o, .pageC r false :: .summaryC r 6 false :: tr)
    | .error _ =>
      let (o, tr) := lcPass2Inner prov company rest
      (o, .pageC r false :: tr)

/-- CEO pass 2: search each attempt and probe its results; search failures
continue with the next attempt. -/
def lcPass2 (prov : Provider) (company : String) :
    List String → Option String × List Call
  | [] => (none, [])
  | st :: rest =>
    match prov.search st 10 with
    | .ok results =>
      let (o, trI) := lcPass2Inner prov company results
      (match o with
       | some s => (some s, .searchC st 10 :: trI)
       | none =>
         let (o2, tr2) := lcPass2 prov company rest
         (o2, .searchC st 10 :: (trI ++ tr2)))
    | .error _ =>
      let (o2, tr2) := lcPass2 prov company rest
      (o2, .searchC st 10 :: tr2)

/-- CEO pass 3, inner loop (summary with 8 sentences, pass-3 indicators). -/
def lcPass3Inner (prov : Provider) (company : String) :
    List String → Option String × List Call
  | [] => (none, [])
  | r :: rest =>
    match prov.page r false with
    | .ok pg =>
      match prov.summary r 8 false with
      | .ok sm =>
        if ceoAccept ceoInd3 company pg.title sm then
          (some (fmtNoSp pg.title sm pg.url), [.pageC r false, .summaryC r 8 false])
        else
          let (o, tr) := lcPass3Inner prov company rest
          (o, .pageC r false :: .summaryC r 8 false :: tr)
      | .error _ =>
        let (o, tr) := lcPass3Inner prov company rest
        (o, .pageC r false :: .summaryC r 8 false :: tr)
    | .error _ =>
      let (o, tr) := lcPass3Inner prov company rest
      (o, .pageC r false :: tr)

/-- CEO pass 3: the general searches share a single `try`, so a failing
search aborts the whole pass. -/
def lcPass3 (prov : Provider) (company : String) :
    List String → Option String × List Call
  | [] => (none, [])
  | st :: rest =>
    match prov.search st 5 with
    | .ok results =>
      let (o, trI) := lcPass3Inner prov company results
      (match o with
       | some s => (some s, .searchC st 5 :: trI)
       | none =>
         let (o2, tr2) := lcPass3 prov company rest
         (o2, .searchC st 5 :: (trI ++ tr2)))
    | .error _ => (none, [.searchC st 5])

/-- CEO pass 4: the company page itself; only `PageError` and
`DisambiguationError` are handled, anything else propagates. -/
def lcPass4 (prov : Provider) (company : String) :
    Except PyExn (Option String) × List Call :=
  match prov.page company false with
  | .ok pg =>
    (match prov.summary company 10 false with
     | .ok sm =>
       (.ok (some (fmtCompany pg.title sm pg.url)),
        [.pageC company false, .summaryC company 10 false])
     | .error .pageError =>
       (.ok none, [.pageC company false, .summaryC company 10 false])
     | .error (.disambig _) =>
       (.ok none, [.pageC company false, .summaryC company 10 false])
     | .error e => (.error e, [.pageC company false, .summaryC company 10 false]))
  | .error .pageError => (.ok none, [.pageC company false])
  | .error (.disambig _) => (.ok none, [.pageC company false])
  | .error e => (.error e, [.pageC company false])

/-- Disambiguation handler, loop over `e.options[:5]` with the mutual
containment filter. -/
def lcDisLoop (prov : Provider) (clean : String) :
    List String → Option String × List Call
  | [] => (none, [])
  | o :: rest =>
    if isSub (pyLower clean.data) (pyLower o.data) ||
        isSub (pyLower o.data) (pyLower clean.data) then
      match prov.page o true with
      | .ok pg =>
        match prov.summary o 5 true with
        | .ok sm =>
          (some (fmtMultiLC pg.title sm pg.url), [.pageC o true, .summaryC o 5 true])
        | .error _ =>
          let (r, tr) := lcDisLoop prov clean rest
          (r, .pageC o true :: .summaryC o 5 true :: tr)
      | .error _ =>
        let (r, tr) := lcDisLoop prov clean rest
        (r, .pageC o true :: tr)
    else lcDisLoop prov clean rest

/-- The full `except DisambiguationError` handler: probe filtered options,
then fall back to `e.options[0]` (an empty options list raises an
`IndexError` that the bare `except` swallows). -/
def lcDisHandler (prov : Provider) (clean : String) (opts : List String) :
    Option String × List Call :=
  let (r, tr) := lcDisLoop prov clean (opts.take 5)
  match r with
  | some s => (some s, tr)
  | none =>
    match opts with
    | [] => (none, tr)
    | o0 :: _ =>
      match prov.page o0 true with
      | .ok pg =>
        (match prov.summary o0 5 true with
         | .ok sm =>
           (some (fmtNoSp pg.title sm pg.url),
            tr ++ [.pageC o0 true, .summaryC o0 5 true])
         | .error _ => (none, tr ++ [.pageC o0 true, .summaryC o0 5 true]))
      | .error _ => (none, tr ++ [.pageC o0 true])

/-- Loop over `search_results[:5]` of the `except PageError` handler,
accepting results containing the cleaned query. -/
def lcPeLoop (prov : Provider) (clean : String) :
    List String → Option String × List Call
  | [] => (none, [])
  | r :: rest =>
    if isSub (pyLower clean.data) (pyLower r.data) then
      match prov.page r true with
      | .ok pg =>
        match prov.summary r 5 true with
        | .ok sm =>
          (some (fmtSp pg.title sm pg.url), [.pageC r true, .summaryC r 5 true])
        | .error _ =>
          let (o, tr) := lcPeLoop prov clean rest
          (o, .pageC r true :: .summaryC r 5 true :: tr)
      | .error _ =>
        let (o, tr) := lcPeLoop prov clean rest
        (o, .pageC r true :: tr)
    else lcPeLoop prov clean rest

/-- The full `except PageError` handler: ranked search, filtered probe,
then the first result unconditionally. -/
def lcPeHandler (prov : Provider) (clean : String) : Option String × List Call :=
  match prov.search clean 10 with
  | .error _ => (none, [.searchC clean 10])
  | .ok results =>
    let (r, tr) := lcPeLoop prov clean (results.take 5)
    match r with
    | some s => (some s, .searchC clean 10 :: tr)
    | none =>
      match results with
      | [] => (none, .searchC clean 10 :: tr)
      | r0 :: _ =>
        match prov.page r0 true with
        | .ok pg =>
          (match prov.summary r0 5 true with
           | .ok sm =>
             (some (fmtSp pg.title sm pg.url),
              .searchC clean 10 :: (tr ++ [.pageC r0 true, .summaryC r0 5 true]))
           | .error _ =>
             (none, .searchC clean 10 :: (tr ++ [.pageC r0 true, .summaryC r0 5 true])))
        | .error _ => (none, .searchC clean 10 :: (tr ++ [.pageC r0 true]))

/-- The general (non-CEO) search block: direct page fetch, with the
disambiguation and page-error handlers; any other exception propagates. -/
def lcGeneral (prov : Provider) (clean : String) :
    Except PyExn (Option String) × List Call :=
  match prov.page clean false with
  | .ok pg =>
    (match prov.summary clean 5 false with
     | .ok sm =>
       (.ok (some (fmtNoSp pg.title sm pg.url)),
        [.pageC clean false, .summaryC clean 5 false])
     | .error (.disambig opts) =>
       let (r, tr) := lcDisHandler prov clean opts
       (.ok r, .pageC clean false :: .summaryC clean 5 false :: tr)
     | .error .pageError =>
       let (r, tr) := lcPeHandler prov clean
       (.ok r, .pageC clean false :: .summaryC clean 5 false :: tr)
     | .error e => (.error e, [.pageC clean false, .summaryC clean 5 false]))
  | .error (.disambig opts) =>
    let (r, tr) := lcDisHandler prov clean opts
    (.ok r, .pageC clean false :: tr)
  | .error .pageError =>
    let (r, tr) := lcPeHandler prov clean
    (.ok r, .pageC clean false :: tr)
  | .error e => (.error e, [.pageC clean false])

/-- `LangChainKnowledgeBot._search_wikipedia_direct`: clean the query, run
the CEO ladder when `"CEO of"` occurs in it, then the general block; the
outer `except Exception` converts any propagated error into the
`errLC` message. -/
def searchWikipediaDirect (prov : Provider) (query : String) : String × List Call :=
  let clean := cleanQueryLC query
  if clean = "" then (promptLC, [])
  else
    let ceoStep : Except PyExn (Option String) × List Call :=
      if isSub "CEO of".data clean.data then
        let company : String := ⟨pyStrip (replaceAll "CEO of".data [] clean.data)⟩
        let attempts := searchAttemptsFor company
        let (r1, t1) := lcPass1 prov attempts
        match r1 with
        | some s => (.ok (some s), t1)
        | none =>
          let (r2, t2) := lcPass2 prov company attempts
          match r2 with
          | some s => (.ok (some s), t1 ++ t2)
          | none =>
            let (r3, t3) := lcPass3 prov company (generalSearchesFor company)
            match r3 with
            | some s => (.ok (some s), t1 ++ t2 ++ t3)
            | none =>
              let (r4, t4) := lcPass4 prov company
              (r4, t1 ++ t2 ++ t3 ++ t4)
      else (.ok none, [])
    match ceoStep with
    | (.error e, tr) => (errLC (pyStr e), tr)
    | (.ok (some s), tr) => (s, tr)
    | (.ok none, tr) =>
      match lcGeneral prov clean with
      | (.error e, trG) => (errLC (pyStr e), tr ++ trG)
      | (.ok (some s), trG) => (s, tr ++ trG)
      | (.ok none, trG) => (cnfLC clean, tr ++ trG)

/-! ### Education extraction and follow-up handling -/

/-- The education keywords of `_extract_education_info`'s main branch. -/
def eduKw13 : List (List Char) :=
  ["education".data, "university".data, "college".data, "school".data,
   "graduated".data, "degree".data, "bachelor".data, "master".data,
   "phd".data, "studied".data, "attended".data, "alumni".data, "mba".data]

/-- The education keywords of the fallback branch (no `mba`). -/
def eduKw12 : List (List Char) :=
  ["education".data, "university".data, "college".data, "school".data,
   "graduated".data, "degree".data, "bachelor".data, "master".data,
   "phd".data, "studied".data, "attended".data, "alumni".data]

/-- The sentence-collecting loop of `_extract_education_info`: keep each
stripped sentence that is non-empty and contains a keyword. -/
def eduFilter (kws : List (List Char)) : List (List Char) → List (List Char)
  | [] => []
  | s :: rest =>
    let t := pyStrip s
    if t ≠ [] ∧ anySubIn kws (pyLower t) then t :: eduFilter kws rest
    else eduFilter kws rest

/-- Python sentence join with a dot and a space. -/
def joinDot (ss : List (List Char)) : List Char := List.intercalate ['.', ' '] ss

/-- Header of the education responses. -/
def eduHeader (name : String) : String := "**" ++ name ++ " - Education**\n\n"

/-- Source-link footer of the education response. -/
def eduFooter (url : String) : String :=
  "\n\n [Read more on Wikipedia](" ++ url ++ ")"

/-- The no-education-details message (the link emoji is mojibake in the
source file and is reproduced byte-for-byte). -/
def eduNoInfo (name url : String) : String :=
  "**" ++ name ++
    " - Education**\n\nI couldn\u0027t find specific education details in the Wikipedia article. The biography mentions his career but not detailed educational background.\n\nðŸ”— [Read full biography](" ++
    url ++ ")"

/-- The fallback message when even the summary has no education sentence. -/
def eduFallbackNoInfo (name mainResp : String) : String :=
  "**" ++ name ++ "**\n\n" ++ mainResp ++
    "\n\nðŸ“š Education details may be found in the full biography above."

/-- `LangChainKnowledgeBot._extract_education_info`: fetch the full page
for the entity and keep the first four education sentences (ellipsis when
more were found); on any fetch failure fall back to filtering the given
response text (first three sentences, no ellipsis). -/
def extractEducationInfo (prov : Provider) (mainResp entityName : String) :
    String × List Call :=
  match prov.page entityName false with
  | .ok pg =>
    let es := eduFilter eduKw13 (splitPunct pg.content.data)
    if es ≠ [] then
      (eduHeader entityName ++ (⟨joinDot (es.take 4)⟩ : String) ++
        (if es.length > 4 then "..." else "") ++ eduFooter pg.url,
       [.pageC entityName false])
    else (eduNoInfo entityName pg.url, [.pageC entityName false])
  | .error _ =>
    let es := eduFilter eduKw12 (splitPunct mainResp.data)
    if es ≠ [] then
      (eduHeader entityName ++ (⟨joinDot (es.take 3)⟩ : String),
       [.pageC entityName false])
    else (eduFallbackNoInfo entityName mainResp, [.pageC entityName false])

/-- Keyword membership test used by the follow-up aspect branches. -/
def anyKw (ws : List (List Char)) (ql : List Char) : Bool :=
  ws.any (fun w => isSub w ql)

/-- `LangChainKnowledgeBot._handle_follow_up`: resolve the last topic from
`self.last_entity` or the rendered history, then branch on aspect
keywords. -/
def handleFollowUp (prov : Provider) (st : LCState) (query : String) :
    String × List Call :=
  let ql := pyLower (pyStrip query.data)
  let lastTopic : String :=
    match st.lastEntity with
    | some e =>
      if e ≠ "" then e else extractLastTopic (renderHistory st.memory)
    | none => extractLastTopic (renderHistory st.memory)
  if lastTopic = "" then ("", [])
  else if anyKw ["study".data, "education".data, "college".data,
      "university".data] ql then
    let (eduRes, tr1) := searchWikipediaDirect prov (lastTopic ++ " education")
    if eduRes ≠ "" ∧ ¬ (isSub "Could not find".data eduRes.data = true) then
      if isSub (pyLower lastTopic.data) (pyLower eduRes.data) = true ∧
          ¬ (isSub "education".data (pyLower eduRes.data) = true) then
        let (r, tr2) := extractEducationInfo prov eduRes lastTopic
        (r, tr1 ++ tr2)
      else (eduRes, tr1)
    else
      let (mainP, tr2) := searchWikipediaDirect prov lastTopic
      let (r, tr3) := extractEducationInfo prov mainP lastTopic
      (r, tr1 ++ tr2 ++ tr3)
  else if anyKw ["party".data, "political".data, "belongs".data] ql then
    searchWikipediaDirect prov (lastTopic ++ " political party")
  else if anyKw ["born".data, "birthplace".data, "from".data] ql then
    searchWikipediaDirect prov (lastTopic ++ " birthplace")
  else if anyKw ["profession".data, "work".data, "career".data] ql then
    searchWikipediaDirect prov (lastTopic ++ " profession")
  else if anyKw ["where".data, "when".data, "how".data, "what".data] ql then
    searchWikipediaDirect prov (lastTopic ++ " " ++ query)
  else searchWikipediaDirect prov lastTopic

/-! ### `LangChainKnowledgeBot.process_query` -/

/-- The fixed greeting of `LangChainKnowledgeBot._handle_greeting`. -/
def greetLC : String :=
  " Hello! I\u0027m your LangChain-powered Conversational Knowledge Bot.\n\nI can:\n- Answer factual questions using Wikipedia\n- Remember our conversation for follow-up questions\n- Search for information about people, places, concepts, and more\n\nTry asking:\n- \"Who is the CEO of Google?\"\n- \"What is quantum computing?\"\n- \"Tell me about World War 2\"\n- \"Capital of France\"\n\nWhat would you like to know?"

/-- The fixed thanks reply of `LangChainKnowledgeBot._handle_thanks`. -/
def thanksLC : String :=
  " You\u0027re welcome! Feel free to ask more questions anytime."

/-- The fixed help text of `LangChainKnowledgeBot._get_help` (the bullets
are mojibake in the source file, reproduced byte-for-byte). -/
def helpLC : String :=
  " **HELP - LangChain Knowledge Bot**\n\n**What I can do:**\nâ€¢ Answer factual questions using Wikipedia\nâ€¢ Remember conversation context for follow-ups\nâ€¢ Search for information about any topic\n\n**Example Questions:**\nâ€¢ Who is the CEO of OpenAI?\nâ€¢ What is artificial intelligence?\nâ€¢ Tell me about World War 2\nâ€¢ President of United States\nâ€¢ Capital of France\n\n**LangChain Components Used:**\n1. ConversationBufferMemory - Stores conversation history\n2. Memory.save_context() - Saves exchanges\n3. Memory.load_memory_variables() - Retrieves history\n\nType \u0027quit\u0027 to exit anytime!"

/-- The non-special-command tail of `process_query`: reset `last_entity`
for fresh entity queries, build the search query from the entity and role
keywords, search, mine the response for the next `last_entity`, record the
exchange. -/
def processMainLC (prov : Provider) (st : LCState) (qs : String)
    (entity : Option String) (isFU : Bool) : (String × LCState) × List Call :=
  let st1 := if optTruthy entity ∧ ¬ (isFU = true) then
      { st with lastEntity := none }
    else st
  let ql := pyLower qs.data
  let searchQ : String :=
    match entity with
    | some e =>
      if e ≠ "" then
        (if isSub "ceo".data ql then "CEO of " ++ e
         else if isSub "president".data ql then "President of " ++ e
         else if isSub "capital".data ql then e ++ " (capital)"
         else e)
      else qs
    | none => qs
  let (resp, tr) := searchWikipediaDirect prov searchQ
  let extracted := extractEntityFromResponse resp
  let st2 :=
    if optTruthy extracted then { st1 with lastEntity := extracted }
    else if optTruthy entity then { st1 with lastEntity := entity }
    else st1
  ((resp, saveLC st2 qs resp), tr)

/-- `LangChainKnowledgeBot.process_query`: strip, dispatch the special
commands (each of which records the exchange), try the follow-up path,
then the main search path. -/
def processQueryLC (prov : Provider) (st : LCState) (query : String) :
    (String × LCState) × List Call :=
  let q : List Char := pyStrip query.data
  if q = [] then ((askMsg, st), [])
  else
    let ql := pyLower q
    let qs : String := ⟨q⟩
    if ql = "hi".data ∨ ql = "hello".data ∨ ql = "hey".data then
      ((greetLC, saveLC st qs greetLC), [])
    else if ql = "help".data ∨ ql = "?".data then
      ((helpLC, saveLC st qs helpLC), [])
    else if isSub "thank".data ql then
      ((thanksLC, saveLC st qs thanksLC), [])
    else
      let entity := extractEntity qs
      let isFU := isFollowUp qs
      if isFU then
        let (fu, trF) := handleFollowUp prov st qs
        if fu ≠ "" ∧ ¬ (isSub "Could not find".data fu.data = true) then
          ((fu, saveLC st qs fu), trF)
        else
          let (out, tr2) := processMainLC prov st qs entity isFU
          (out, trF ++ tr2)
      else processMainLC prov st qs entity isFU

/-! ### Support lemmas: stripping -/

theorem dwIdem (p : Char → Bool) (l : List Char) :
    (l.dropWhile p).dropWhile p = l.dropWhile p := by
  induction l with
  | nil => rfl
  | cons c r ih =>
    by_cases h : p c <;> simp [List.dropWhile_cons, h, ih]

theorem dwHead (p : Char → Bool) {l : List Char} {c : Char} {u : List Char}
    (h : l.dropWhile p = c :: u) : p c = false := by
  induction l with
  | nil => simp [List.dropWhile] at h
  | cons a r ih =>
    by_cases ha : p a
    · rw [List.dropWhile_cons_of_pos ha] at h
      exact ih h
    · rw [List.dropWhile_cons_of_neg ha] at h
      cases h
      simpa using ha

theorem stripEnd_idem (m : List Char) : stripEnd (stripEnd m) = stripEnd m := by
  simp only [stripEnd, List.reverse_reverse]
  rw [dwIdem]

/-- `stripEnd m` is a leading part of `m`. -/
theorem stripEnd_pre (m : List Char) : ∃ t, m = stripEnd m ++ t := by
  refine ⟨(m.reverse.takeWhile pyIsSpace).reverse, ?_⟩
  simp only [stripEnd]
  rw [← List.reverse_append, List.takeWhile_append_dropWhile, List.reverse_reverse]

theorem stripLead_stripEnd_stripLead (l : List Char) :
    stripLead (stripEnd (stripLead l)) = stripEnd (stripLead l) := by
  cases h : stripEnd (stripLead l) with
  | nil => rfl
  | cons c t =>
    obtain ⟨rest, hrest⟩ := stripEnd_pre (stripLead l)
    rw [h] at hrest
    have hc : pyIsSpace c = false := by
      have : l.dropWhile pyIsSpace = c :: (t ++ rest) := by
        simpa [stripLead] using hrest
      exact dwHead pyIsSpace this
    simp [stripLead, List.dropWhile_cons, hc]

theorem stripIdem (l : List Char) : pyStrip (pyStrip l) = pyStrip l := by
  simp only [pyStrip]
  rw [stripLead_stripEnd_stripLead, stripEnd_idem]

/-- The output of the shared normalizer core is strip-invariant. -/
theorem cleanCore_strip (prefs : List (List Char)) (l : List Char) :
    pyStrip (cleanQueryCore prefs l) = cleanQueryCore prefs l := by
  simp only [cleanQueryCore]
  cases h : prefs.find? (fun p => isPre p (pyLower (pyStrip l))) with
  | none => simp [stripIdem]
  | some p => simp [stripIdem]

/-! ### Support lemmas: substring containment -/

theorem isPreIff (n l : List Char) : isPre n l = true ↔ ∃ t, l = n ++ t := by
  induction n generalizing l with
  | nil => simp [isPre]
  | cons a n ih =>
    cases l with
    | nil => simp [isPre]
    | cons b l =>
      simp only [isPre, Bool.and_eq_true, decide_eq_true_eq, ih, List.cons_append,
        List.cons.injEq]
      constructor
      · rintro ⟨rfl, t, rfl⟩
        exact ⟨t, rfl, rfl⟩
      · rintro ⟨t, rfl, rfl⟩
        exact ⟨rfl, t, rfl⟩

theorem isSubIff (n l : List Char) : isSub n l = true ↔ ∃ s t, l = s ++ n ++ t := by
  induction l with
  | nil =>
    simp only [isSub, List.isEmpty_iff]
    constructor
    · rintro rfl
      exact ⟨[], [], rfl⟩
    · rintro ⟨s, t, h⟩
      rcases s with _ | ⟨a, s⟩ <;> rcases n with _ | ⟨b, n⟩ <;> simp_all
  | cons c l ih =>
    simp only [isSub, Bool.or_eq_true, isPreIff, ih]
    constructor
    · rintro (⟨t, h⟩ | ⟨s, t, h⟩)
      · exact ⟨[], t, by simpa using h⟩
      · exact ⟨c :: s, t, by simp [h]⟩
    · rintro ⟨s, t, h⟩
      rcases s with _ | ⟨a, s⟩
      · exact Or.inl ⟨t, by simpa using h⟩
      · rw [List.cons_append] at h
        injection h with h1 h2
        exact Or.inr ⟨s, t, h2⟩

theorem isSubRev {n l : List Char} (h : isSub n l = true) :
    isSub n.reverse l.reverse = true := by
  rw [isSubIff] at h ⊢
  obtain ⟨s, t, rfl⟩ := h
  exact ⟨t.reverse, s.reverse, by simp⟩

/-- A non-empty segment whose first character is not whitespace survives
`dropWhile pyIsSpace`. -/
theorem isSub_dropWhile {n l : List Char} {c0 : Char} (hn : n = c0 :: n.tail)
    (hc0 : pyIsSpace c0 = false) (h : isSub n l = true) :
    isSub n (l.dropWhile pyIsSpace) = true := by
  induction l with
  | nil => simpa using h
  | cons c l ih =>
    by_cases hc : pyIsSpace c
    · rw [List.dropWhile_cons_of_pos hc]
      apply ih
      simp only [isSub, Bool.or_eq_true] at h
      rcases h with hp | hs
      · rw [hn] at hp
        rcases (isPreIff _ _).1 hp with ⟨t, ht⟩
        rw [List.cons_append] at ht
        injection ht with ht1 ht2
        rw [← ht1, hc] at hc0
        cases hc0
      · exact hs
    · rwa [List.dropWhile_cons_of_neg hc]

/-- Containment of a non-empty all-non-whitespace segment is preserved by
Python `strip`. -/
theorem isSub_strip {n l : List Char} (hne : n ≠ [])
    (hnws : ∀ c ∈ n, pyIsSpace c = false) (h : isSub n l = true) :
    isSub n (pyStrip l) = true := by
  rcases hn : n with _ | ⟨c0, nt⟩
  · exact absurd hn hne
  subst hn
  have h1 : isSub (c0 :: nt) (stripLead l) = true :=
    isSub_dropWhile rfl (hnws c0 (by simp)) h
  have h2 := isSubRev h1
  rcases hrev : (c0 :: nt).reverse with _ | ⟨d0, dt⟩
  · simp at hrev
  have hd0 : pyIsSpace d0 = false := by
    apply hnws
    rw [← List.mem_reverse, hrev]
    simp
  rw [hrev] at h2
  have h3 : isSub (d0 :: dt) ((stripLead l).reverse.dropWhile pyIsSpace) = true :=
    isSub_dropWhile rfl hd0 h2
  have h4 := isSubRev h3
  rw [← hrev, List.reverse_reverse] at h4
  exact h4

/-- `str.lower` commutes with `str.strip`. -/
theorem lower_strip (l : List Char) : pyLower (pyStrip l) = pyStrip (pyLower l) := by
  have hws : ∀ c, pyIsSpace (asciiLower c) = pyIsSpace c := by
    intro c
    unfold asciiLower
    split <;> rfl
  have hfun : (pyIsSpace ∘ asciiLower) = pyIsSpace := funext fun c => hws c
  have hdw : ∀ m : List Char,
      (m.map asciiLower).dropWhile pyIsSpace = (m.dropWhile pyIsSpace).map asciiLower := by
    intro m
    rw [List.dropWhile_map, hfun]
  simp only [pyStrip, pyLower, stripLead, stripEnd]
  rw [hdw, ← List.map_reverse, hdw, List.map_reverse]

/-! ### Support lemmas: the bounded memory -/

/-- The last `K` elements of a list. -/
def lastN (K : Nat) (l : List TurnB) : List TurnB := l.drop (l.length - K)

theorem lastN_len_le (K : Nat) (l : List TurnB) : (lastN K l).length ≤ K := by
  simp only [lastN, List.length_drop]
  omega

theorem lastN_of_le {K : Nat} {l : List TurnB} (h : l.length ≤ K) :
    lastN K l = l := by
  simp [lastN, Nat.sub_eq_zero_of_le h]

/-- A deque append keeps exactly the last `maxHistory` turns. -/
theorem saveContext_hist (m : ConvMemory) (u b ts : String) :
    (saveContext m u b ts).history = lastN m.maxHistory (m.history ++ [⟨u, b, ts⟩]) := by
  simp only [saveContext, lastN]
  split
  · rfl
  · next hgt =>
    have h0 : (m.history ++ [(⟨u, b, ts⟩ : TurnB)]).length - m.maxHistory = 0 := by
      simp only [List.length_append, List.length_cons, List.length_nil] at hgt ⊢
      omega
    rw [h0, List.drop_zero]

theorem lastN_append (K : Nat) (l m : List TurnB) :
    lastN K (lastN K l ++ m) = lastN K (l ++ m) := by
  by_cases h : l.length ≤ K
  · rw [lastN_of_le h]
  · have hsplit : l ++ m = l.take (l.length - K) ++ (l.drop (l.length - K) ++ m) := by
      rw [← List.append_assoc, List.take_append_drop]
    have hlen : (l.take (l.length - K)).length = l.length - K := by
      rw [List.length_take]
      omega
    conv_rhs => rw [hsplit]
    simp only [lastN, List.length_append, List.length_drop]
    have harith : (l.take (l.length - K)).length + (l.length - (l.length - K) + m.length) - K
        = (l.take (l.length - K)).length + (l.length - (l.length - K) + m.length - K) := by
      rw [hlen]
      omega
    rw [harith, ← List.drop_drop, List.drop_left]

/-- Record a list of `(user, bot, timestamp)` turns in order. -/
def recordAll (m : ConvMemory) (L : List (String × String × String)) : ConvMemory :=
  L.foldl (fun m t => saveContext m t.1 t.2.1 t.2.2) m

/-- View one recorded triple as the stored turn. -/
def mkTurn (t : String × String × String) : TurnB := ⟨t.1, t.2.1, t.2.2⟩

theorem recordAll_hist (K : Nat) :
    ∀ (L : List (String × String × String)) (m : ConvMemory),
      m.maxHistory = K → m.history.length ≤ K →
      (recordAll m L).history = lastN K (m.history ++ L.map mkTurn) := by
  intro L
  induction L with
  | nil =>
    intro m hmax hlen
    simp only [recordAll, List.foldl_nil, List.map_nil, List.append_nil]
    exact (lastN_of_le hlen).symm
  | cons t L ih =>
    intro m hmax hlen
    have hstep : recordAll m (t :: L) = recordAll (saveContext m t.1 t.2.1 t.2.2) L := by
      simp [recordAll]
    have hmax2 : (saveContext m t.1 t.2.1 t.2.2).maxHistory = K := by
      simpa [saveContext] using hmax
    have hh : (saveContext m t.1 t.2.1 t.2.2).history =
        lastN K (m.history ++ [mkTurn t]) := by
      rw [saveContext_hist, hmax]
      rfl
    have hlen2 : (saveContext m t.1 t.2.1 t.2.2).history.length ≤ K := by
      rw [hh]
      exact lastN_len_le K _
    rw [hstep, ih _ hmax2 hlen2, hh, lastN_append, List.append_assoc]
    rfl

/-! ### Support lemmas: every bot.py search result is one of the fixed
templates -/

theorem botDisLoop_shape (prov : Provider) :
    ∀ (l : List String) (r : String), (botDisLoop prov l).1 = some r →
      ∃ t s u, r = fmtBotMulti t s u := by
  intro l
  induction l with
  | nil =>
    intro r h
    simp [botDisLoop] at h
  | cons o rest ih =>
    intro r h
    rcases hrec : botDisLoop prov rest with ⟨ro, tro⟩
    cases hp : prov.page o true with
    | ok pg =>
      cases hs : prov.summary o 5 true with
      | ok sm =>
        simp only [botDisLoop, hp, hs] at h
        exact ⟨pg.title, sm, pg.url, (Option.some.inj h).symm⟩
      | error e =>
        simp only [botDisLoop, hp, hs, hrec] at h
        exact ih r (by rw [hrec]; exact h)
    | error e =>
      simp only [botDisLoop, hp, hrec] at h
      exact ih r (by rw [hrec]; exact h)

theorem botMainLoop_shape (prov : Provider) :
    ∀ (l : List String) (r : String), (botMainLoop prov l).1 = some r →
      (∃ t s u, r = fmtBot t s u) ∨ (∃ t s u, r = fmtBotMulti t s u) := by
  intro l
  induction l with
  | nil =>
    intro r h
    simp [botMainLoop] at h
  | cons o rest ih =>
    intro r h
    rcases hrec : botMainLoop prov rest with ⟨ro, tro⟩
    cases hp : prov.page o true with
    | ok pg =>
      cases hs : prov.summary o 5 true with
      | ok sm =>
        simp only [botMainLoop, hp, hs] at h
        exact Or.inl ⟨pg.title, sm, pg.url, (Option.some.inj h).symm⟩
      | error e =>
        cases e with
        | disambig opts =>
          rcases hd : botDisLoop prov (opts.take 5) with ⟨dr, dtr⟩
          cases dr with
          | some s =>
            simp only [botMainLoop, hp, hs, hd] at h
            exact Or.inr (botDisLoop_shape prov (opts.take 5) r
              (by rw [hd]; simpa using h))
          | none =>
            simp only [botMainLoop, hp, hs, hd, hrec] at h
            exact ih r (by rw [hrec]; exact h)
        | pageError =>
          simp only [botMainLoop, hp, hs, hrec] at h
          exact ih r (by rw [hrec]; exact h)
        | other m =>
          simp only [botMainLoop, hp, hs, hrec] at h
          exact ih r (by rw [hrec]; exact h)
    | error e =>
      cases e with
      | disambig opts =>
        rcases hd : botDisLoop prov (opts.take 5) with ⟨dr, dtr⟩
        cases dr with
        | some s =>
          simp only [botMainLoop, hp, hd] at h
          exact Or.inr (botDisLoop_shape prov (opts.take 5) r
            (by rw [hd]; simpa using h))
        | none =>
          simp only [botMainLoop, hp, hd, hrec] at h
          exact ih r (by rw [hrec]; exact h)
      | pageError =>
        simp only [botMainLoop, hp, hrec] at h
        exact ih r (by rw [hrec]; exact h)
      | other m =>
        simp only [botMainLoop, hp, hrec] at h
        exact ih r (by rw [hrec]; exact h)

theorem searchWikipedia_shape (prov : Provider) (q : String) :
    (searchWikipedia prov q).1 = promptB ∨ (searchWikipedia prov q).1 = cnfB1 q ∨
    (searchWikipedia prov q).1 = cnfB2 q ∨
    (∃ t s u, (searchWikipedia prov q).1 = fmtBot t s u) ∨
    (∃ t s u, (searchWikipedia prov q).1 = fmtBotMulti t s u) := by
  have hfin : ∀ rt : List String × List Call,
      (searchFinish prov q rt).1 = cnfB1 q ∨ (searchFinish prov q rt).1 = cnfB2 q ∨
      (∃ t s u, (searchFinish prov q rt).1 = fmtBot t s u) ∨
      (∃ t s u, (searchFinish prov q rt).1 = fmtBotMulti t s u) := by
    intro rt
    simp only [searchFinish]
    split
    · exact Or.inl rfl
    · cases hm : (botMainLoop prov (rt.1.take 5)).1 with
      | some s =>
        rcases botMainLoop_shape prov _ s hm with ⟨t, sm, u, rfl⟩ | ⟨t, sm, u, rfl⟩
        · exact Or.inr (Or.inr (Or.inl ⟨t, sm, u, by simp [hm]⟩))
        · exact Or.inr (Or.inr (Or.inr ⟨t, sm, u, by simp [hm]⟩))
      | none => exact Or.inr (Or.inl (by simp [hm]))
  simp only [searchWikipedia]
  split
  · exact Or.inl rfl
  · rcases hfin _ with h | h | h | h
    · exact Or.inr (Or.inl h)
    · exact Or.inr (Or.inr (Or.inl h))
    · exact Or.inr (Or.inr (Or.inr (Or.inl h)))
    · exact Or.inr (Or.inr (Or.inr (Or.inr h)))

end KB

open KB

/-- Claim C3: for every input whose normalized (prefix-stripped) form has
zero length, the search routine — `_search_wikipedia` in bot.py and
`_search_wikipedia_direct` in langchain_bot.py — returns its fixed
prompt-for-topic message and makes no provider call (the call trace is
empty). -/
theorem c3_empty_query_no_provider_call :
    ∀ (prov : Provider) (q : String),
      (cleanQueryB q = "" → searchWikipedia prov q = (promptB, [])) ∧
      (cleanQueryLC q = "" → searchWikipediaDirect prov q = (promptLC, [])) := by
  intro prov q
  constructor
  · intro h
    simp only [searchWikipedia]
    rw [if_pos h]
  · intro h
    simp only [searchWikipediaDirect]
    rw [if_pos h]

/-- Witness for C3 at the concrete input `"who is"`, whose normalized form
is empty in both bots. -/
theorem c3_witness :
    cleanQueryB "who is" = "" ∧ cleanQueryLC "who is" = "" ∧
    searchWikipedia (failProv "e") "who is" = (promptB, []) ∧
    searchWikipediaDirect (failProv "e") "who is" = (promptLC, []) :=
  ⟨by decide, by decide,
   (c3_empty_query_no_provider_call (failProv "e") "who is").1 (by decide),
   (c3_empty_query_no_provider_call (failProv "e") "who is").2 (by decide)⟩

/-- Claim C4: for every capacity K ≥ 1, recording K+1 turns into a fresh
`ConversationMemory` of capacity K leaves exactly K stored turns with the
oldest evicted first (the stored history is the input minus its first
turn, in order), and `save_context` always leaves at most `maxHistory`
turns stored. -/
theorem c4_memory_bound :
    (∀ (K : Nat), 1 ≤ K →
      ∀ L : List (String × String × String), L.length = K + 1 →
        (recordAll (initMemory K) L).history = (L.drop 1).map mkTurn ∧
        (recordAll (initMemory K) L).history.length = K) ∧
    (∀ (m : ConvMemory) (u b ts : String),
        (saveContext m u b ts).history.length ≤ m.maxHistory) ∧
    (∀ m : ConvMemory, (clearMemory m).history.length ≤ m.maxHistory) := by
  constructor
  · intro K hK L hL
    have h := recordAll_hist K L (initMemory K) rfl (by simp [initMemory])
    rw [show (initMemory K).history = [] from rfl, List.nil_append] at h
    have hlen : (L.map mkTurn).length = K + 1 := by simp [hL]
    have hdrop : lastN K (L.map mkTurn) = (L.drop 1).map mkTurn := by
      simp only [lastN, hlen]
      have h1 : K + 1 - K = 1 := by omega
      rw [h1, ← List.map_drop]
    refine ⟨h.trans hdrop, ?_⟩
    rw [h, hdrop]
    simp [hL]
  constructor
  · intro m u b ts
    rw [saveContext_hist]
    exact lastN_len_le _ _
  · intro m
    simp [clearMemory]

/-- Witness for C4 at K = 1 with two recorded turns: only the second
survives. -/
theorem c4_witness :
    (recordAll (initMemory 1) [("u1", "b1", "t1"), ("u2", "b2", "t2")]).history
        = [⟨"u2", "b2", "t2"⟩] ∧
    (recordAll (initMemory 1)
        [("u1", "b1", "t1"), ("u2", "b2", "t2")]).history.length = 1 := by
  have h := c4_memory_bound.1 1 (by decide)
    [("u1", "b1", "t1"), ("u2", "b2", "t2")] (by decide)
  refine ⟨?_, h.2⟩
  rw [h.1]
  rfl

/-- Claim C5: `normalize("Who is Marie Curie?") = "Marie Curie?"`: the
leading interrogative prefix is stripped and whitespace trimmed; moreover
for every input the normalizer's output is a whitespace-trimmed suffix of
the trimmed input, so the internal casing of the remainder is never
altered. -/
theorem c5_normalizer_example :
    cleanQueryB "Who is Marie Curie?" = "Marie Curie?" ∧
    ∀ q : String, ∃ n : Nat,
      (cleanQueryB q).data = pyStrip ((pyStrip q.data).drop n) := by
  refine ⟨by decide, ?_⟩
  intro q
  simp only [cleanQueryB, cleanQueryCore]
  cases h : prefixesB.find? (fun p => isPre p (pyLower (pyStrip q.data))) with
  | some p => exact ⟨p.length, by simp [h]⟩
  | none => exact ⟨0, by simp [h, stripIdem]⟩

/-- Claim C6 counterexample: the normalizer is not idempotent on
`"what is what is paris"` — one pass leaves `"what is paris"`, a second
pass strips again to `"paris"`. -/
theorem c6_counterexample :
    ¬ (cleanQueryB (cleanQueryB "what is what is paris")
        = cleanQueryB "what is what is paris") := by decide

/-- Claim C6 (amended): the normalizer is idempotent on every input whose
normalized form no longer starts (case-insensitively) with any prefix of
the table. -/
theorem c6_idempotent_once_no_match :
    ∀ q : String,
      prefixesB.all (fun p => !isPre p (pyLower (cleanQueryB q).data)) = true →
      cleanQueryB (cleanQueryB q) = cleanQueryB q := by
  intro q h
  have hstrip : pyStrip (cleanQueryB q).data = (cleanQueryB q).data :=
    cleanCore_strip prefixesB q.data
  have hnone : prefixesB.find?
      (fun p => isPre p (pyLower (pyStrip (cleanQueryB q).data))) = none := by
    rw [List.find?_eq_none]
    intro p hp
    rw [hstrip]
    have hall := List.all_eq_true.1 h p hp
    simp only [Bool.not_eq_true'] at hall
    simp [hall]
  have hcore : cleanQueryCore prefixesB (cleanQueryB q).data
      = (cleanQueryB q).data := by
    simp only [cleanQueryCore, hnone]
    exact hstrip
  show (⟨cleanQueryCore prefixesB (cleanQueryB q).data⟩ : String) = cleanQueryB q
  rw [hcore]

/-- Witness for C6 (amended) at `"Who is Marie Curie?"`: its normalized
form `"Marie Curie?"` matches no prefix, and normalizing again is the
identity. -/
theorem c6_witness :
    prefixesB.all
      (fun p => !isPre p (pyLower (cleanQueryB "Who is Marie Curie?").data)) = true ∧
    cleanQueryB (cleanQueryB "Who is Marie Curie?")
      = cleanQueryB "Who is Marie Curie?" :=
  ⟨by decide, c6_idempotent_once_no_match "Who is Marie Curie?" (by decide)⟩

/-- Claim C7: entity extraction on the two documented examples —
`"Who is the CEO of Google?"` yields `"google"` (lower-cased, articles
stripped) and `"What is quantum computing?"` yields
`"quantum computing"`. -/
theorem c7_entity_extraction_examples :
    extractEntity "Who is the CEO of Google?" = some "google" ∧
    extractEntity "What is quantum computing?" = some "quantum computing" := by
  constructor <;> decide

/-- Claim C8: the follow-up classifier accepts `"Where was he born?"` and
rejects `"What is the capital of France?"`. -/
theorem c8_follow_up_examples :
    isFollowUp "Where was he born?" = true ∧
    isFollowUp "What is the capital of France?" = false := by
  constructor <;> rfl

/-- Claim C1 counterexample: `KnowledgeBot.process_query` on `"hello"`
returns the fixed greeting with no provider call, but the exchange is NOT
recorded — the memory still holds no turns afterwards, contradicting the
claim that the exchange is recorded into Memory. -/
theorem c1_counterexample :
    (processQueryB (failProv "") (initMemory 10) "hello" "t0").1.1 = greetB ∧
    (processQueryB (failProv "") (initMemory 10) "hello" "t0").1.2.history = [] ∧
    (processQueryB (failProv "") (initMemory 10) "hello" "t0").2 = [] :=
  ⟨rfl, rfl, rfl⟩

/-- Claim C1 (amended): on input `"hello"` both bots bypass resolution
entirely (empty call trace) and return their fixed greeting;
`LangChainKnowledgeBot.process_query` records the exchange into its
memory, while `KnowledgeBot.process_query` returns with the memory
unchanged. -/
theorem c1_greeting_paths :
    ∀ (prov : Provider) (mem : ConvMemory) (ts : String) (st : LCState),
      processQueryB prov mem "hello" ts = ((greetB, mem), []) ∧
      processQueryLC prov st "hello"
        = ((greetLC, ⟨st.memory ++ [("hello", greetLC)], st.lastEntity⟩), []) := by
  intro prov mem ts st
  exact ⟨rfl, rfl⟩

/-- Claim C10: any input containing `"thank"` (case-insensitively) makes
both bots return the fixed thanks message with no provider call; the
LangChain bot records the exchange, the bot.py bot leaves memory
untouched. -/
theorem c10_thanks_shortcircuit :
    ∀ (prov : Provider) (mem : ConvMemory) (st : LCState) (q ts : String),
      isSub "thank".data (pyLower q.data) = true →
      processQueryB prov mem q ts = ((thanksB, mem), []) ∧
      processQueryLC prov st q
        = ((thanksLC, saveLC st ⟨pyStrip q.data⟩ thanksLC), []) := by
  intro prov mem st q ts h
  have hth : ("thank".data : List Char) ≠ [] := by decide
  have hws : ∀ c ∈ ("thank".data : List Char), pyIsSpace c = false := by decide
  have h2 : isSub "thank".data (pyStrip (pyLower q.data)) = true :=
    isSub_strip hth hws h
  have h3 : isSub "thank".data (pyLower (pyStrip q.data)) = true := by
    rw [lower_strip]
    exact h2
  have hne : pyStrip q.data ≠ [] := by
    intro he
    rw [he] at h3
    simp [pyLower, isSub] at h3
  have hhi : ¬ (pyLower (pyStrip q.data) = "hi".data ∨
      pyLower (pyStrip q.data) = "hello".data ∨
      pyLower (pyStrip q.data) = "hey".data) := by
    rintro (he | he | he) <;> rw [he] at h3 <;> exact absurd h3 (by decide)
  have hhelp : ¬ (pyLower (pyStrip q.data) = "help".data ∨
      pyLower (pyStrip q.data) = "?".data) := by
    rintro (he | he) <;> rw [he] at h3 <;> exact absurd h3 (by decide)
  constructor
  · unfold processQueryB
    rw [if_neg hne, if_neg hhi, if_neg hhelp, if_pos h3]
  · unfold processQueryLC
    rw [if_neg hne, if_neg hhi, if_neg hhelp, if_pos h3]

/-- Witness for C10: `"What is Thanksgiving?"` — a factual question that
mentions Thanksgiving — is answered with the thanks message and no
search. -/
theorem c10_witness :
    processQueryB (failProv "x") (initMemory 10) "What is Thanksgiving?" "t0"
        = ((thanksB, initMemory 10), []) ∧
    processQueryLC (failProv "x") initLC "What is Thanksgiving?"
        = ((thanksLC,
            saveLC initLC ⟨pyStrip "What is Thanksgiving?".data⟩ thanksLC), []) :=
  c10_thanks_shortcircuit (failProv "x") (initMemory 10) initLC
    "What is Thanksgiving?" "t0" (by decide)

/-- Claim C2: `process_query` never raises — modelled by the fact that
every provider-call outcome is matched and the result is always one of
the fixed response templates; and with a provider every call of which
raises, both bots convert the failure into their not-found/error message
strings (shown at the concrete query `"What is quantum computing?"`),
never propagating the exception. -/
theorem c2_no_raise_templates :
    (∀ (prov : Provider) (mem : ConvMemory) (q ts : String),
      (processQueryB prov mem q ts).1.1 = askMsg ∨
      (processQueryB prov mem q ts).1.1 = greetB ∨
      (processQueryB prov mem q ts).1.1 = helpB ∨
      (processQueryB prov mem q ts).1.1 = thanksB ∨
      (processQueryB prov mem q ts).1.1 = promptB ∨
      (processQueryB prov mem q ts).1.1 = cnfB1 ⟨pyStrip q.data⟩ ∨
      (processQueryB prov mem q ts).1.1 = cnfB2 ⟨pyStrip q.data⟩ ∨
      (∃ t s u, (processQueryB prov mem q ts).1.1 = fmtBot t s u) ∨
      (∃ t s u, (processQueryB prov mem q ts).1.1 = fmtBotMulti t s u)) ∧
    (∀ (e : String) (mem : ConvMemory) (ts : String), ∃ mem2,
      processQueryB (failProv e) mem "What is quantum computing?" ts
        = ((cnfB1 "What is quantum computing?", mem2),
           [.searchC "quantum computing?" 10,
            .searchC "What is quantum computing?" 10,
            .searchC "What is quantum" 10,
            .searchC "is quantum computing?" 10,
            .searchC "quantum computing?" 10])) ∧
    (∀ (e : String) (st : LCState), ∃ st2,
      processQueryLC (failProv e) st "What is quantum computing?"
        = ((errLC e, st2), [.pageC "quantum computing" false])) ∧
    (∀ (prov : Provider) (q : String) (e : PyExn) (tr : List Call),
      cleanQueryLC q ≠ "" →
      isSub "CEO of".data (cleanQueryLC q).data = false →
      lcGeneral prov (cleanQueryLC q) = (.error e, tr) →
      searchWikipediaDirect prov q = (errLC (pyStr e), tr)) := by
  refine ⟨?_, ?_, ?_, ?_⟩
  · intro prov mem q ts
    unfold processQueryB
    by_cases h0 : pyStrip q.data = []
    · rw [if_pos h0]
      exact Or.inl rfl
    · rw [if_neg h0]
      by_cases h1 : pyLower (pyStrip q.data) = "hi".data ∨
          pyLower (pyStrip q.data) = "hello".data ∨
          pyLower (pyStrip q.data) = "hey".data
      · rw [if_pos h1]
        exact Or.inr (Or.inl rfl)
      · rw [if_neg h1]
        by_cases h2 : pyLower (pyStrip q.data) = "help".data ∨
            pyLower (pyStrip q.data) = "?".data
        · rw [if_pos h2]
          exact Or.inr (Or.inr (Or.inl rfl))
        · rw [if_neg h2]
          by_cases h3 : isSub "thank".data (pyLower (pyStrip q.data)) = true
          · rw [if_pos h3]
            exact Or.inr (Or.inr (Or.inr (Or.inl rfl)))
          · rw [if_neg h3]
            rcases searchWikipedia_shape prov ⟨pyStrip q.data⟩ with
              h | h | h | ⟨t, s, u, h⟩ | ⟨t, s, u, h⟩
            · exact Or.inr (Or.inr (Or.inr (Or.inr (Or.inl h))))
            · exact Or.inr (Or.inr (Or.inr (Or.inr (Or.inr (Or.inl h)))))
            · exact Or.inr (Or.inr (Or.inr (Or.inr (Or.inr (Or.inr (Or.inl h))))))
            · exact Or.inr (Or.inr (Or.inr (Or.inr (Or.inr (Or.inr (Or.inr
                (Or.inl ⟨t, s, u, h⟩)))))))
            · exact Or.inr (Or.inr (Or.inr (Or.inr (Or.inr (Or.inr (Or.inr
                (Or.inr ⟨t, s, u, h⟩)))))))
  · intro e mem ts
    exact ⟨_, rfl⟩
  · intro e st
    exact ⟨_, rfl⟩
  · intro prov q e tr hne hceo hgen
    unfold searchWikipediaDirect
    rw [if_neg hne, hceo]
    simp only [Bool.false_eq_true, if_false, hgen, List.nil_append]

/-- Witness for C2's boundary-conversion conjunct: a provider raising a
generic exception on every call makes `_search_wikipedia_direct` return
its error-message string for the query `"quantum computing"`. -/
theorem c2_witness :
    searchWikipediaDirect (failProv "kaboom") "quantum computing"
      = (errLC "kaboom", [.pageC "quantum computing" false]) :=
  c2_no_raise_templates.2.2.2 (failProv "kaboom") "quantum computing"
    (.other "kaboom") [.pageC "quantum computing" false]
    (by decide) (by decide) rfl

/-- The education-aspect acceptance test stated as the spec describes it:
the stripped sentences of the article that are non-empty and contain an
education keyword, in order. -/
def matchingEduSentences (kws : List (List Char)) (content : List Char) :
    List (List Char) :=
  ((splitPunct content).map pyStrip).filter
    (fun s => !s.isEmpty && anySubIn kws (pyLower s))

theorem eduFilter_eq (kws : List (List Char)) :
    ∀ ss : List (List Char),
      eduFilter kws ss = (ss.map pyStrip).filter
        (fun s => !s.isEmpty && anySubIn kws (pyLower s)) := by
  intro ss
  induction ss with
  | nil => rfl
  | cons s rest ih =>
    simp only [eduFilter, List.map_cons, List.filter_cons]
    by_cases h1 : pyStrip s = []
    · rw [if_neg (by simp [h1]), ih]
      simp [h1]
    · by_cases h2 : anySubIn kws (pyLower (pyStrip s)) = true
      · rw [if_pos ⟨h1, h2⟩, ih]
        have hb : (!(pyStrip s).isEmpty && anySubIn kws (pyLower (pyStrip s))) = true := by
          simp [List.isEmpty_iff, h1, h2]
        rw [hb]
        simp
      · rw [if_neg (by tauto), ih]
        have hb : (!(pyStrip s).isEmpty && anySubIn kws (pyLower (pyStrip s))) = false := by
          simp [h2]
        rw [hb]
        simp

/-- Claim C9: on the success path of `_extract_education_info` (the full
article fetched), the collected sentences are exactly the stripped article
sentences containing an education keyword; at most the first four of them
are rendered, and an ellipsis is appended exactly when more than four
matched. -/
theorem c9_education_formatter :
    ∀ (prov : Provider) (name mainResp : String) (pg : PageData),
      prov.page name false = .ok pg →
      eduFilter eduKw13 (splitPunct pg.content.data)
          = matchingEduSentences eduKw13 pg.content.data ∧
      (∀ s ∈ matchingEduSentences eduKw13 pg.content.data,
          anySubIn eduKw13 (pyLower s) = true) ∧
      ((matchingEduSentences eduKw13 pg.content.data).take 4).length ≤ 4 ∧
      (extractEducationInfo prov mainResp name).1 =
        (if matchingEduSentences eduKw13 pg.content.data ≠ [] then
          eduHeader name ++
            (⟨joinDot ((matchingEduSentences eduKw13 pg.content.data).take 4)⟩ : String) ++
            (if (matchingEduSentences eduKw13 pg.content.data).length > 4
             then "..." else "") ++
            eduFooter pg.url
        else eduNoInfo name pg.url) := by
  intro prov name mainResp pg hp
  have heq := eduFilter_eq eduKw13 (splitPunct pg.content.data)
  refine ⟨heq, ?_, ?_, ?_⟩
  · intro s hs
    have hmem := (List.mem_filter.1 hs).2
    simp only [Bool.and_eq_true] at hmem
    exact hmem.2
  · exact List.length_take_le 4 _
  · unfold extractEducationInfo
    rw [hp]
    simp only [heq, matchingEduSentences]
    rw [apply_ite Prod.fst]

/-- Witness provider for C9: one page with six education sentences. -/
def pgW : PageData :=
  ⟨"Alice", "u-a",
   "She studied math. A degree earned! Attended Z? Her college period. She graduated. University of Y. Nothing else"⟩

/-- Witness provider for C9 (only the page fetch for `"Alice"` succeeds). -/
def eduProvW : Provider :=
  ⟨fun _ _ => .error .pageError,
   fun t a => if t = "Alice" ∧ a = false then .ok pgW else .error .pageError,
   fun _ _ _ => .error .pageError⟩

/-- Witness for C9: on the six-education-sentence page the formatter keeps
the first four sentences and appends the ellipsis. -/
theorem c9_witness :
    (extractEducationInfo eduProvW "" "Alice").1
      = eduHeader "Alice" ++
        "She studied math. A degree earned. Attended Z. Her college period" ++
        "..." ++ eduFooter "u-a" := by
  have h := c9_education_formatter eduProvW "Alice" "" pgW rfl
  rw [h.2.2.2]
  rfl
